import Mathlib

/-!
# Verification of the photosift session engine

A shallow embedding of the photo-culling session engine
(`src/photo_manager.py` and the deferred-action protocol of
`src/main_window.py`), together with theorems settling the frozen claims
about its specification.

Modelling conventions:
* Python `datetime` timestamps are abstract `Nat` values threaded in as a
  `now` parameter; `isoformat`/`fromisoformat` round-trip losslessly, so
  serialization of a timestamp is the identity.
* The filesystem is a list of existing paths plus a list of paths whose
  `unlink` raises; `unlink` returns `none` when the Python call would raise.
* Qt signal emissions (`photos_loaded`, `photo_deleted`, `error_occurred`,
  `session_updated`) are connected only to display/status-bar slots in
  `main_window.py`, which touch no session state, so emits are no-ops here.
* Python mutates `PhotoPair` objects in place; the scan produces exactly one
  object per base name, held by the `photo_pairs` list, so an object is
  identified by its index in that list and in-place mutation becomes
  `List.set` at that index.
-/

/-- `PhotoAction` enum from `photo_manager.py`. -/
inductive PhotoAction where
  | NONE
  | KEEP_ALL
  | DELETE_RAW
  | DELETE_ALL
  | SKIPPED
deriving DecidableEq, Repr

/-- The `.value` string of each enum member. -/
def PhotoAction.value : PhotoAction → String
  | .NONE => "none"
  | .KEEP_ALL => "keep_all"
  | .DELETE_RAW => "delete_raw"
  | .DELETE_ALL => "delete_all"
  | .SKIPPED => "skipped"

/-- The Python enum constructor `PhotoAction(s)`: returns the member whose
value is `s`, or `none` where Python raises `ValueError`. -/
def parseAction (s : String) : Option PhotoAction :=
  if s = "none" then some .NONE
  else if s = "keep_all" then some .KEEP_ALL
  else if s = "delete_raw" then some .DELETE_RAW
  else if s = "delete_all" then some .DELETE_ALL
  else if s = "skipped" then some .SKIPPED
  else none

/-- `PhotoPair` dataclass: paths are strings, timestamps abstract `Nat`s. -/
structure PhotoPair where
  base_name : String
  jpeg_path : Option String := none
  raw_path : Option String := none
  action : PhotoAction := .NONE
  action_timestamp : Option Nat := none
deriving DecidableEq, Repr

instance : Inhabited PhotoPair := ⟨{ base_name := "" }⟩

/-- `PhotoPair.set_action`: sets the action and stamps it with `now`. -/
def PhotoPair.set_action (p : PhotoPair) (a : PhotoAction) (now : Nat) : PhotoPair :=
  { p with action := a, action_timestamp := some now }

/-- `PhotoPair.has_action`: `action != PhotoAction.NONE`. -/
def PhotoPair.has_actionB (p : PhotoPair) : Bool :=
  decide (p.action ≠ .NONE)

/-- `PhotoPair.has_jpeg` relative to the set `ex` of existing paths:
the path is set and the file exists. -/
def PhotoPair.hasJpegB (ex : List String) (p : PhotoPair) : Bool :=
  match p.jpeg_path with
  | some q => decide (q ∈ ex)
  | none => false

/-- `PhotoPair.has_raw` relative to the set `ex` of existing paths. -/
def PhotoPair.hasRawB (ex : List String) (p : PhotoPair) : Bool :=
  match p.raw_path with
  | some q => decide (q ∈ ex)
  | none => false

/-- One record of the sidecar `actions` mapping:
`{action: string, timestamp: ISO string or null}`. -/
structure SessionRecord where
  action : String
  timestamp : Option Nat
deriving DecidableEq, Repr

/-- The filesystem: existing paths, paths whose `unlink` raises, and the
content of the session sidecar file (`none` = absent or unreadable). -/
structure FS where
  existing : List String
  failing : List String
  sidecar : Option (List (String × SessionRecord))
deriving DecidableEq, Repr

/-- `Path.unlink`: raises (returns `none`) when the file is absent or the
deletion fails; otherwise removes the path. -/
def FS.unlink (fs : FS) (p : String) : Option FS :=
  if p ∈ fs.existing ∧ p ∉ fs.failing then
    some { fs with existing := fs.existing.erase p }
  else none

/-- Association-list lookup in the sidecar `actions` mapping (Python dict
keys are unique, so first-match lookup agrees with dict access). -/
def lookupRecord (m : List (String × SessionRecord)) (n : String) : Option SessionRecord :=
  (m.find? (fun e => e.1 = n)).map (·.2)

/-- The `actions` object built by `_save_session_data` (lines 290‑296):
one record per photo with a non-`none` action, keyed by base name. -/
def sessionActions (pairs : List PhotoPair) : List (String × SessionRecord) :=
  (pairs.filter (·.has_actionB)).map
    (fun p => (p.base_name, ⟨p.action.value, p.action_timestamp⟩))

/-- The per-photo body of `_apply_session_data`: look the photo up in the
loaded mapping; an unparsable action string (`ValueError`) leaves the photo
untouched; the timestamp is applied only when present (truthy). -/
def applyOne (m : List (String × SessionRecord)) (p : PhotoPair) : PhotoPair :=
  match lookupRecord m p.base_name with
  | none => p
  | some rec =>
    match parseAction rec.action with
    | none => p
    | some a =>
      let p1 := { p with action := a }
      match rec.timestamp with
      | some t => { p1 with action_timestamp := some t }
      | none => p1

/-- `_apply_session_data` over the whole photo list. -/
def applySessionData (pairs : List PhotoPair) (m : List (String × SessionRecord)) :
    List PhotoPair :=
  pairs.map (applyOne m)

/-- Index of the first element satisfying `c`, or `none`: the semantics of
Python's first-match scans (`list.index`, the `for`/`return` search in
`_set_resume_index`). -/
def firstIdxWhere (c : α → Bool) : List α → Option Nat
  | [] => none
  | x :: xs => if c x then some 0 else (firstIdxWhere c xs).map (· + 1)

/-- A directory entry as `pathlib` decomposes it: `stem` plus `suffix`
(the final extension, dot included; empty when the name has no dot). -/
structure FileName where
  stem : String
  suffix : String
deriving DecidableEq, Repr

/-- The file's full path (the folder prefix is irrelevant to the model). -/
def FileName.path (f : FileName) : String := f.stem ++ f.suffix

/-- `PhotoManager.JPEG_EXTENSIONS = {'.jpg', '.jpeg', '.JPG', '.JPEG'}`. -/
def JPEG_EXTENSIONS : List String := [".jpg", ".jpeg", ".JPG", ".JPEG"]

/-- `PhotoManager.RAW_EXTENSIONS = {'.cr2', '.CR2', '.cr3', '.CR3'}`. -/
def RAW_EXTENSIONS : List String := [".cr2", ".CR2", ".cr3", ".CR3"]

/-- The assignment step of `_scan_photos` (lines 140‑144): place the file
into the pair's preview or archive slot by exact set membership of its
extension; unmatched extensions leave the pair as is. -/
def assignFile (f : FileName) (p : PhotoPair) : PhotoPair :=
  if f.suffix ∈ JPEG_EXTENSIONS then { p with jpeg_path := some f.path }
  else if f.suffix ∈ RAW_EXTENSIONS then { p with raw_path := some f.path }
  else p

/-- The `file_groups` dict of `_scan_photos`: keyed by stem, insertion
order preserved, the pair for an already-seen stem updated in place. -/
def buildGroups (files : List FileName) : List PhotoPair :=
  files.foldl
    (fun acc f =>
      if acc.any (fun p => p.base_name = f.stem) then
        acc.map (fun p => if p.base_name = f.stem then assignFile f p else p)
      else acc ++ [assignFile f { base_name := f.stem }])
    []

/-- Stable insertion used to model Python's stable `list.sort` keyed by
`base_name.lower()`: an element is inserted after all equal keys. -/
def insertSorted (p : PhotoPair) : List PhotoPair → List PhotoPair
  | [] => [p]
  | q :: qs =>
    if p.base_name.toLower < q.base_name.toLower then p :: q :: qs
    else q :: insertSorted p qs

/-- Stable sort by case-folded base name (line 151). -/
def sortPairs (l : List PhotoPair) : List PhotoPair :=
  l.foldr insertSorted []

/-- `_scan_photos` minus the session application: group the directory
listing, drop groups with no supported file (`has_jpeg or has_raw`, checked
against the just-enumerated files), and sort case-insensitively. -/
def scanPhotoList (files : List FileName) : List PhotoPair :=
  let ex := files.map FileName.path
  sortPairs ((buildGroups files).filter
    (fun p => p.hasJpegB ex || p.hasRawB ex))

/-- The mutable state of `PhotoManager`. -/
structure PMState where
  current_folder : Option String
  photo_pairs : List PhotoPair
  current_index : Nat
  session_data : List (String × SessionRecord)
deriving DecidableEq, Repr

/-- `get_current_photo` (lines 158‑162). -/
def get_current_photo (s : PMState) : Option PhotoPair :=
  if h : s.photo_pairs.isEmpty ∨ s.photo_pairs.length ≤ s.current_index then none
  else
    some (s.photo_pairs.get ⟨s.current_index,
      Nat.lt_of_not_le (fun hle => h (Or.inr hle))⟩)

/-- `_save_session_data`: no-op without a current folder, otherwise a
whole-file replace of the sidecar with the persisted `actions` mapping. -/
def save_session_data (s : PMState) (fs : FS) : FS :=
  match s.current_folder with
  | none => fs
  | some _ => { fs with sidecar := some (sessionActions s.photo_pairs) }

/-- `_set_resume_index` (lines 342‑360). `prefs = none` models a missing
preferences object (resumption then stays enabled). -/
def set_resume_index (s : PMState) (prefs : Option Bool) : PMState :=
  if s.photo_pairs.isEmpty then { s with current_index := 0 }
  else if prefs = some false then { s with current_index := 0 }
  else
    match firstIdxWhere (fun p => !p.has_actionB) s.photo_pairs with
    | some i => { s with current_index := i }
    | none => { s with current_index := 0 }

/-- A folder as `load_folder` sees it: its path, whether it exists and is a
directory, its immediate file listing in enumeration order, and the parsed
sidecar content (`none` = file missing or malformed ⇒ empty mapping). -/
structure Folder where
  path : String
  valid : Bool
  files : List FileName
  session : Option (List (String × SessionRecord))
deriving Repr

/-- `load_folder` (lines 96‑120): set `current_folder`, validate, load the
sidecar, scan (which applies the session mapping), set the resume index;
returns `false` on an invalid directory. -/
def load_folder (s : PMState) (f : Folder) (prefs : Option Bool) : PMState × Bool :=
  let s1 := { s with current_folder := some f.path }
  if f.valid then
    let s2 := { s1 with session_data := f.session.getD [] }
    let s3 := { s2 with
      photo_pairs := applySessionData (scanPhotoList f.files) s2.session_data }
    (set_resume_index s3 prefs, true)
  else (s1, false)

/-- `delete_jpeg_only` (lines 184‑194), acting on the photo object at index
`i` of `photo_pairs`: if a JPEG exists, unlink it (a raised exception is
caught and yields `False` with nothing changed) and null its path; no
action change, no removal, no save. -/
def delete_jpeg_only (s : PMState) (fs : FS) (i : Nat) : PMState × FS × Bool :=
  let p := s.photo_pairs.getD i default
  if p.hasJpegB fs.existing then
    match fs.unlink (p.jpeg_path.getD "") with
    | none => (s, fs, false)
    | some fs1 =>
      ({ s with photo_pairs := s.photo_pairs.set i { p with jpeg_path := none } },
       fs1, true)
  else (s, fs, false)

/-- `delete_raw_only` (lines 196‑209) on the photo object at index `i`:
unlink the RAW file if present, null its path, set `delete_raw`, persist. -/
def delete_raw_only (s : PMState) (fs : FS) (i : Nat) (now : Nat) :
    PMState × FS × Bool :=
  let p := s.photo_pairs.getD i default
  if p.hasRawB fs.existing then
    match fs.unlink (p.raw_path.getD "") with
    | none => (s, fs, false)
    | some fs1 =>
      let p1 := ({ p with raw_path := none }).set_action .DELETE_RAW now
      let s1 := { s with photo_pairs := s.photo_pairs.set i p1 }
      (s1, save_session_data s1 fs1, true)
  else (s, fs, false)

/-- The JPEG half of `delete_both_files` (lines 216‑218): skip when no JPEG
is present, otherwise unlink and null the path; `none` models the raised
exception (caught by the surrounding `except`). -/
def attemptJpeg (fs : FS) (p : PhotoPair) : Option (FS × PhotoPair) :=
  if p.hasJpegB fs.existing then
    (fs.unlink (p.jpeg_path.getD "")).map
      (fun fs1 => (fs1, { p with jpeg_path := none }))
  else some (fs, p)

/-- The RAW half of `delete_both_files` (lines 220‑222). -/
def attemptRaw (fs : FS) (p : PhotoPair) : Option (FS × PhotoPair) :=
  if p.hasRawB fs.existing then
    (fs.unlink (p.raw_path.getD "")).map
      (fun fs1 => (fs1, { p with raw_path := none }))
  else some (fs, p)

/-- `delete_both_files` (lines 211‑252) on the photo object at index `i`:
delete whichever files exist (an exception aborts right there, keeping the
mutations already made and returning `False`), set `delete_all`, remove the
first list element equal to the mutated object (`in`/`.index`/`.remove`
compare by field equality), adjust the cursor, persist. -/
def delete_both_files (s : PMState) (fs : FS) (i : Nat) (now : Nat) :
    PMState × FS × Bool :=
  let p0 := s.photo_pairs.getD i default
  match attemptJpeg fs p0 with
  | none => (s, fs, false)
  | some (fs1, p1) =>
    match attemptRaw fs1 p1 with
    | none => ({ s with photo_pairs := s.photo_pairs.set i p1 }, fs1, false)
    | some (fs2, p2) =>
      let p3 := p2.set_action .DELETE_ALL now
      let pairs3 := s.photo_pairs.set i p3
      match firstIdxWhere (fun q => q = p3) pairs3 with
      | some idx =>
        let pairs4 := pairs3.eraseIdx idx
        let ci :=
          if pairs4.isEmpty then 0
          else if idx < s.current_index then s.current_index - 1
          else if idx = s.current_index then
            (if pairs4.length ≤ s.current_index then pairs4.length - 1
             else s.current_index)
          else s.current_index
        let s4 := { s with photo_pairs := pairs4, current_index := ci }
        (s4, save_session_data s4 fs2, true)
      | none =>
        let s3 := { s with photo_pairs := pairs3 }
        (s3, save_session_data s3 fs2, true)

/-- The deferred commit callback captured by `_start_pending_action`: the
closure in `_delete_raw_file` calls `delete_raw_only`; the closure in
`_delete_all_files` calls `delete_both_files` and then, when it returned
`True`, `PhotoManager.remove_current_photo_from_list` — a method that does
not exist anywhere in the repository, so that call raises
`AttributeError`. -/
inductive CommitKind where
  | deleteRawKind (photoIdx : Nat)
  | deleteAllKind (photoIdx : Nat)
deriving DecidableEq, Repr

/-- The `PendingAction` dataclass of `main_window.py` (lines 24‑31); the
captured photo object is identified by its index in `photo_pairs`. -/
structure PendingAction where
  action_type : String
  photoIdx : Nat
  description : String
  commit : CommitKind
  previous_index : Nat
deriving DecidableEq, Repr

/-- The session-relevant state of `MainWindow`: the photo manager plus the
at-most-one pending action. -/
structure WState where
  pm : PMState
  pending : Option PendingAction
deriving DecidableEq, Repr

/-- Run a staged commit callback. `Except.error` carries the state at the
point an exception escapes the callback. -/
def runCommit (pm : PMState) (fs : FS) (now : Nat) :
    CommitKind → Except (PMState × FS) (PMState × FS)
  | .deleteRawKind i =>
    let r := delete_raw_only pm fs i now
    .ok (r.1, r.2.1)
  | .deleteAllKind i =>
    let r := delete_both_files pm fs i now
    if r.2.2 then .error (r.1, r.2.1)
    else .ok (r.1, r.2.1)

/-- The outcome of `_execute_pending_action`: either a normal return or an
exception propagating out of the slot, with the state left behind. -/
inductive ExecOutcome where
  | ok (w : WState) (fs : FS)
  | raised (w : WState) (fs : FS)
deriving DecidableEq, Repr

/-- `_execute_pending_action` (lines 1215‑1229): no-op when nothing is
pending; otherwise stop the countdown, invoke the staged callback once, and
clear the pending state — unless the callback raises, in which case the
clearing line is never reached. -/
def execute_pending_action (w : WState) (fs : FS) (now : Nat) : ExecOutcome :=
  match w.pending with
  | none => .ok w fs
  | some pa =>
    match runCommit w.pm fs now pa.commit with
    | .ok (pm1, fs1) => .ok { pm := pm1, pending := none } fs1
    | .error (pm1, fs1) => .raised { pm := pm1, pending := some pa } fs1

/-- `_cancel_pending_action` (lines 1231‑1242): no-op when nothing is
pending; otherwise restore the cursor to the staged `previous_index` and
clear the pending state without invoking the callback. -/
def cancel_pending_action (w : WState) : WState :=
  match w.pending with
  | none => w
  | some pa =>
    { pm := { w.pm with current_index := pa.previous_index }, pending := none }



/-- A freshly scanned copy of an entry: same base name and paths, action
`none`, no timestamp (what `_scan_photos` produces before
`_apply_session_data`). -/
def resetPair (p : PhotoPair) : PhotoPair :=
  { p with action := .NONE, action_timestamp := none }

/-! ### Concrete states used by witnesses and counterexamples -/

/-- A fully populated unreviewed entry `a`. -/
def pairA : PhotoPair := ⟨"a", some "a.jpg", some "a.cr2", .NONE, none⟩

/-- A one-entry session over folder `/d`, cursor at 0. -/
def pmA : PMState := ⟨some "/d", [pairA], 0, []⟩

/-- Filesystem holding both of `a`'s files; all deletions succeed. -/
def fsA : FS := ⟨["a.jpg", "a.cr2"], [], none⟩

/-- Same filesystem, but deleting `a.cr2` raises. -/
def fsAfail : FS := ⟨["a.jpg", "a.cr2"], ["a.cr2"], none⟩

/-- `pairA` after its JPEG alone was deleted. -/
def pairAnoJpeg : PhotoPair := { pairA with jpeg_path := none }

/-- `fsAfail` after `a.jpg` was deleted. -/
def fsAafterJpeg : FS := ⟨["a.cr2"], ["a.cr2"], none⟩

/-- A staged delete-all on entry `a` (cursor to restore: 0). -/
def pendingA : PendingAction :=
  ⟨"delete_all", 0, "Deleting ALL files for a", .deleteAllKind 0, 0⟩

/-- Window state with `pendingA` staged. -/
def winA : WState := ⟨pmA, some pendingA⟩

/-- Reviewed entries `x`, `y` and an unreviewed `z` for the round-trip. -/
def pairX : PhotoPair := ⟨"x", some "x.jpg", some "x.cr2", .KEEP_ALL, some 5⟩

def pairY : PhotoPair := ⟨"y", some "y.jpg", some "y.cr2", .DELETE_RAW, some 6⟩

def pairZ : PhotoPair := ⟨"z", some "z.jpg", none, .NONE, none⟩

def origEx : List PhotoPair := [pairX, pairY, pairZ]

/-- Entries `[A, B, C]` with the cursor on `B`, as in property P6. -/
def pA : PhotoPair := ⟨"a", some "a.jpg", none, .NONE, none⟩

def pB : PhotoPair := ⟨"b", some "b.jpg", some "b.cr2", .NONE, none⟩

def pC : PhotoPair := ⟨"c", none, some "c.cr2", .NONE, none⟩

def pmABC : PMState := ⟨some "/d", [pA, pB, pC], 1, []⟩

def fsABC : FS := ⟨["a.jpg", "b.jpg", "b.cr2", "c.cr2"], [], none⟩

/-- `fsABC` after `b.jpg` was deleted. -/
def fsABC1 : FS := ⟨["a.jpg", "b.cr2", "c.cr2"], [], none⟩

/-- `fsABC` after both of `b`'s files were deleted. -/
def fsABC2 : FS := ⟨["a.jpg", "c.cr2"], [], none⟩

/-- `pB` after its JPEG was deleted. -/
def pB1 : PhotoPair := ⟨"b", none, some "b.cr2", .NONE, none⟩

/-- `pB` after both files were deleted. -/
def pB2 : PhotoPair := ⟨"b", none, none, .NONE, none⟩

/-- A session on `/old` before a failing load attempt. -/
def sOld : PMState := ⟨some "/old", [pairA], 3, []⟩

/-- A nonexistent target directory. -/
def badFolder : Folder := ⟨"/bad", false, [], none⟩

/-- An empty fresh session state. -/
def sInit : PMState := ⟨none, [], 0, []⟩

/-- A valid folder: `x` already kept per its sidecar, `y` unreviewed. -/
def folderEx : Folder :=
  ⟨"/d", true, [⟨"x", ".jpg"⟩, ⟨"y", ".jpg"⟩],
   some [("x", ⟨"keep_all", some 5⟩)]⟩

/-! ## Helper lemmas -/

theorem parse_value (a : PhotoAction) : parseAction a.value = some a := by
  cases a <;> decide

theorem list_set_self (l : List α) (i : Nat) (h : i < l.length) :
    l.set i l[i] = l := by
  induction l generalizing i with
  | nil => rfl
  | cons a t ih =>
    cases i with
    | zero => rfl
    | succ j =>
      simp only [List.getElem_cons_succ, List.set_cons_succ, List.cons.injEq,
        true_and]
      exact ih j (by simpa using h)

theorem eraseIdx_set (l : List α) (i : Nat) (x : α) :
    (l.set i x).eraseIdx i = l.eraseIdx i := by
  induction l generalizing i with
  | nil => rfl
  | cons a t ih =>
    cases i with
    | zero => rfl
    | succ j =>
      simp only [List.set_cons_succ, List.eraseIdx_cons_succ, List.cons.injEq,
        true_and]
      exact ih j

theorem firstIdxWhere_self_of_key_nodup [DecidableEq α] (f : α → β)
    (l : List α) (i : Nat) (h : i < l.length) (hnd : (l.map f).Nodup) :
    firstIdxWhere (fun q => q = l[i]) l = some i := by
  induction l generalizing i with
  | nil => simp at h
  | cons a t ih =>
    simp only [List.map_cons, List.nodup_cons] at hnd
    obtain ⟨ha, ht⟩ := hnd
    cases i with
    | zero => simp [firstIdxWhere]
    | succ j =>
      have hj : j < t.length := by simpa using h
      have hmem : t[j] ∈ t := List.getElem_mem hj
      have hne : ¬ (a = t[j]) := by
        intro he
        exact ha (he ▸ List.mem_map.mpr ⟨t[j], hmem, rfl⟩)
      simp only [List.getElem_cons_succ, firstIdxWhere, decide_eq_true_eq,
        if_neg hne]
      rw [ih j hj ht]
      rfl

theorem unlink_frame (fs : FS) (q : String) (fs1 : FS)
    (h : fs.unlink q = some fs1) :
    fs1.failing = fs.failing ∧ fs1.sidecar = fs.sidecar ∧
    fs1.existing = fs.existing.erase q := by
  unfold FS.unlink at h
  split at h
  · cases h
    exact ⟨rfl, rfl, rfl⟩
  · cases h

theorem attemptJpeg_frame (fs : FS) (p : PhotoPair) (fs1 : FS) (p1 : PhotoPair)
    (h : attemptJpeg fs p = some (fs1, p1)) :
    p1.base_name = p.base_name ∧ p1.raw_path = p.raw_path ∧
    p1.action = p.action ∧ p1.action_timestamp = p.action_timestamp ∧
    fs1.failing = fs.failing ∧ fs1.sidecar = fs.sidecar := by
  unfold attemptJpeg at h
  split at h
  · cases hu : fs.unlink (p.jpeg_path.getD "") with
    | none => rw [hu] at h; cases h
    | some fs2 =>
      rw [hu] at h
      cases h
      obtain ⟨hf, hs, _⟩ := unlink_frame _ _ _ hu
      exact ⟨rfl, rfl, rfl, rfl, hf, hs⟩
  · cases h
    exact ⟨rfl, rfl, rfl, rfl, rfl, rfl⟩

theorem attemptRaw_frame (fs : FS) (p : PhotoPair) (fs1 : FS) (p1 : PhotoPair)
    (h : attemptRaw fs p = some (fs1, p1)) :
    p1.base_name = p.base_name ∧ p1.jpeg_path = p.jpeg_path ∧
    p1.action = p.action ∧ p1.action_timestamp = p.action_timestamp ∧
    fs1.failing = fs.failing ∧ fs1.sidecar = fs.sidecar := by
  unfold attemptRaw at h
  split at h
  · cases hu : fs.unlink (p.raw_path.getD "") with
    | none => rw [hu] at h; cases h
    | some fs2 =>
      rw [hu] at h
      cases h
      obtain ⟨hf, hs, _⟩ := unlink_frame _ _ _ hu
      exact ⟨rfl, rfl, rfl, rfl, hf, hs⟩
  · cases h
    exact ⟨rfl, rfl, rfl, rfl, rfl, rfl⟩

theorem lookupRecord_cons (e : String × SessionRecord)
    (m : List (String × SessionRecord)) (n : String) :
    lookupRecord (e :: m) n = if e.1 = n then some e.2 else lookupRecord m n := by
  by_cases he : e.1 = n
  · simp [lookupRecord, List.find?, he]
  · simp [lookupRecord, List.find?, he]

theorem lookupRecord_eq_none (m : List (String × SessionRecord)) (n : String)
    (h : ∀ e ∈ m, e.1 ≠ n) : lookupRecord m n = none := by
  induction m with
  | nil => rfl
  | cons e t ih =>
    rw [lookupRecord_cons, if_neg (h e (List.mem_cons_self e t))]
    exact ih (fun x hx => h x (List.mem_cons_of_mem e hx))

theorem sessionActions_keys (pairs : List PhotoPair) (e : String × SessionRecord)
    (he : e ∈ sessionActions pairs) : e.1 ∈ pairs.map PhotoPair.base_name := by
  simp only [sessionActions, List.mem_map, List.mem_filter] at he
  obtain ⟨p, ⟨hp, _⟩, rfl⟩ := he
  exact List.mem_map.mpr ⟨p, hp, rfl⟩

theorem lookup_sessionActions_not_mem (pairs : List PhotoPair) (n : String)
    (h : ¬ n ∈ pairs.map PhotoPair.base_name) :
    lookupRecord (sessionActions pairs) n = none :=
  lookupRecord_eq_none _ _
    (fun e he hn => h (hn ▸ sessionActions_keys pairs e he))

theorem sessionActions_cons (p : PhotoPair) (rest : List PhotoPair) :
    sessionActions (p :: rest) =
      if p.has_actionB then
        (p.base_name, ⟨p.action.value, p.action_timestamp⟩) :: sessionActions rest
      else sessionActions rest := by
  by_cases hp : p.has_actionB
  · simp [sessionActions, List.filter_cons, hp]
  · simp [sessionActions, List.filter_cons, hp]

theorem lookup_sessionActions_self (orig : List PhotoPair)
    (hnd : (orig.map PhotoPair.base_name).Nodup) (p : PhotoPair) (hp : p ∈ orig) :
    lookupRecord (sessionActions orig) p.base_name =
      if p.has_actionB then some ⟨p.action.value, p.action_timestamp⟩
      else none := by
  induction orig with
  | nil => cases hp
  | cons q rest ih =>
    simp only [List.map_cons, List.nodup_cons] at hnd
    obtain ⟨hq, hrest⟩ := hnd
    rcases List.mem_cons.mp hp with rfl | hp'
    · rw [sessionActions_cons]
      by_cases ha : p.has_actionB
      · simp [ha, lookupRecord_cons]
      · simp only [ha, Bool.false_eq_true, if_false]
        exact lookup_sessionActions_not_mem rest p.base_name hq
    · have hpb : p.base_name ∈ rest.map PhotoPair.base_name :=
        List.mem_map.mpr ⟨p, hp', rfl⟩
      have hqp : q.base_name ≠ p.base_name := fun he => hq (he ▸ hpb)
      rw [sessionActions_cons]
      by_cases hqa : q.has_actionB
      · simp only [hqa, if_true, lookupRecord_cons, if_neg hqp]
        exact ih hrest hp'
      · simp only [hqa, Bool.false_eq_true, if_false]
        exact ih hrest hp'


theorem applyOne_roundtrip (orig : List PhotoPair)
    (hnd : (orig.map PhotoPair.base_name).Nodup) (p : PhotoPair) (hp : p ∈ orig) :
    applyOne (sessionActions orig) (resetPair p) =
      (if p.action = .NONE then resetPair p else p) := by
  have hl := lookup_sessionActions_self orig hnd p hp
  obtain ⟨b, j, r, a, ts⟩ := p
  by_cases ha : a = PhotoAction.NONE
  · subst ha
    have hab : PhotoPair.has_actionB ⟨b, j, r, .NONE, ts⟩ = false := by
      simp [PhotoPair.has_actionB]
    rw [hab] at hl
    simp only [Bool.false_eq_true, if_false] at hl
    simp [applyOne, resetPair, hl]
  · have hab : PhotoPair.has_actionB ⟨b, j, r, a, ts⟩ = true := by
      simp [PhotoPair.has_actionB, ha]
    rw [hab, if_pos rfl] at hl
    rw [if_neg ha]
    simp only [applyOne, resetPair, hl, parse_value]
    cases ts <;> rfl

theorem set_resume_spec (s : PMState) (prefs : Option Bool) :
    (set_resume_index s prefs).photo_pairs = s.photo_pairs ∧
    (set_resume_index s prefs).current_index =
      (if s.photo_pairs.isEmpty ∨ prefs = some false then 0
       else (firstIdxWhere (fun p => decide (p.action = PhotoAction.NONE))
              s.photo_pairs).getD 0) := by
  have hpred : (fun p : PhotoPair => !p.has_actionB) =
      (fun p : PhotoPair => decide (p.action = PhotoAction.NONE)) := by
    funext p
    simp [PhotoPair.has_actionB, decide_not]
  unfold set_resume_index
  by_cases hemp : s.photo_pairs.isEmpty
  · simp [hemp]
  · by_cases hpf : prefs = some false
    · simp [hemp, hpf]
    · rw [hpred]
      cases hfi : firstIdxWhere (fun p => decide (p.action = PhotoAction.NONE))
          s.photo_pairs with
      | none => simp [hemp, hpf, hfi]
      | some k => simp [hemp, hpf, hfi]

theorem hasJpegB_eq_true_iff (ex : List String) (p : PhotoPair) :
    p.hasJpegB ex = true ↔ ∃ q, p.jpeg_path = some q ∧ q ∈ ex := by
  unfold PhotoPair.hasJpegB
  cases p.jpeg_path <;> simp

/-! ## Claims -/

/-- C2: after a successful load, with resumption enabled the cursor is the
index of the first entry (in final sort order, scanning from index 0) whose
action is `none`; with the sequence empty, every entry reviewed, or
resumption disabled, the cursor is 0. -/
theorem claim_C2_resume_index (s : PMState) (f : Folder) (prefs : Option Bool)
    (hv : f.valid = true) :
    ((load_folder s f prefs).1).current_index =
      (if ((load_folder s f prefs).1).photo_pairs.isEmpty ∨ prefs = some false
       then 0
       else (firstIdxWhere (fun p => decide (p.action = PhotoAction.NONE))
              ((load_folder s f prefs).1).photo_pairs).getD 0) := by
  simp only [load_folder, hv, if_true]
  obtain ⟨h1, h2⟩ := set_resume_spec
    { s with
      current_folder := some f.path
      session_data := f.session.getD []
      photo_pairs := applySessionData (scanPhotoList f.files) (f.session.getD []) }
    prefs
  rw [h1, h2]

/-- Witness for C2: loading `folderEx` (entry `x` already `keep_all` in the
sidecar, `y` unreviewed) with resumption enabled puts the cursor on `y`. -/
theorem claim_C2_witness :
    folderEx.valid = true ∧
    ((load_folder sInit folderEx (some true)).1).current_index =
      (if ((load_folder sInit folderEx (some true)).1).photo_pairs.isEmpty ∨
          (some true : Option Bool) = some false
       then 0
       else (firstIdxWhere (fun p => decide (p.action = PhotoAction.NONE))
              ((load_folder sInit folderEx (some true)).1).photo_pairs).getD 0) :=
  ⟨rfl, claim_C2_resume_index sInit folderEx (some true) rfl⟩

/-- C3: persisting a session (`_save_session_data`'s `actions` mapping) and
applying it to a freshly scanned copy of the same entries restores every
non-`none` entry exactly — same action and timestamp — while `none` entries
are omitted from the mapping and stay `none` on reload. -/
theorem claim_C3_save_load_roundtrip (orig : List PhotoPair)
    (hnd : (orig.map PhotoPair.base_name).Nodup) :
    applySessionData (orig.map resetPair) (sessionActions orig) =
      orig.map (fun p => if p.action = .NONE then resetPair p else p) ∧
    (∀ p ∈ orig, p.action = .NONE →
      lookupRecord (sessionActions orig) p.base_name = none) := by
  constructor
  · unfold applySessionData
    rw [List.map_map]
    exact List.map_congr_left (fun p hp => applyOne_roundtrip orig hnd p hp)
  · intro p hp hnone
    have := lookup_sessionActions_self orig hnd p hp
    rw [this]
    have : p.has_actionB = false := by simp [PhotoPair.has_actionB, hnone]
    simp [this]

/-- Witness for C3 at `origEx = [x → keep_all, y → delete_raw, z → none]`. -/
theorem claim_C3_witness :
    (origEx.map PhotoPair.base_name).Nodup ∧
    (applySessionData (origEx.map resetPair) (sessionActions origEx) =
        origEx.map (fun p => if p.action = .NONE then resetPair p else p) ∧
      (∀ p ∈ origEx, p.action = .NONE →
        lookupRecord (sessionActions origEx) p.base_name = none)) :=
  ⟨by decide, claim_C3_save_load_roundtrip origEx (by decide)⟩

/-- C9: `get_current_photo` returns the entry at the cursor exactly when the
cursor is in range and `none` otherwise, for every state including an empty
sequence or a cursor at or past the end — the guard makes the list access
safe. -/
theorem claim_C9_current_safe (s : PMState) :
    get_current_photo s = s.photo_pairs[s.current_index]? := by
  unfold get_current_photo
  split
  · rename_i h
    rcases h with h | h
    · rw [List.getElem?_eq_none]
      rw [List.isEmpty_iff.mp h]
      exact Nat.zero_le _
    · exact (List.getElem?_eq_none h).symm
  · rename_i h
    have hlt : s.current_index < s.photo_pairs.length :=
      Nat.lt_of_not_le (fun hle => h (Or.inr hle))
    rw [List.getElem?_eq_getElem hlt]
    rfl

/-- C6 counterexample: loading the invalid directory `/bad` over a session
on `/old` fails as claimed, but `current_folder` is overwritten with the
attempted path before validation, so the current directory is *not*
preserved. -/
theorem claim_C6_counterexample :
    (load_folder sOld badFolder none).2 = false ∧
    (load_folder sOld badFolder none).1.current_folder ≠ sOld.current_folder := by
  decide

/-- C6 as amended: a load attempt on an invalid or missing directory
returns `false` (the error is surfaced) and leaves the entry sequence, the
cursor and the session mapping unchanged, but `current_folder` has already
been reassigned to the attempted path. -/
theorem claim_C6_amended (s : PMState) (f : Folder) (prefs : Option Bool)
    (hv : f.valid = false) :
    load_folder s f prefs = ({ s with current_folder := some f.path }, false) ∧
    (load_folder s f prefs).1.photo_pairs = s.photo_pairs ∧
    (load_folder s f prefs).1.current_index = s.current_index ∧
    (load_folder s f prefs).1.session_data = s.session_data := by
  simp [load_folder, hv]

/-- Witness for the amended C6 at `sOld` and `badFolder`. -/
theorem claim_C6_witness :
    badFolder.valid = false ∧
    (load_folder sOld badFolder none =
        ({ sOld with current_folder := some badFolder.path }, false) ∧
      (load_folder sOld badFolder none).1.photo_pairs = sOld.photo_pairs ∧
      (load_folder sOld badFolder none).1.current_index = sOld.current_index ∧
      (load_folder sOld badFolder none).1.session_data = sOld.session_data) :=
  ⟨rfl, claim_C6_amended sOld badFolder none rfl⟩

/-- C7 counterexample: extension matching is *not* case-insensitive — the
mixed-capitalization variant `.Jpg` is in neither literal extension set, so
`a.Jpg` is ignored and scanning yields no entry, while `a.jpg` yields a
preview entry. -/
theorem claim_C7_counterexample :
    scanPhotoList [⟨"a", ".Jpg"⟩] = [] ∧
    scanPhotoList [⟨"a", ".jpg"⟩] = [⟨"a", some "a.jpg", none, .NONE, none⟩] := by
  decide

/-- C7 as amended: a file's extension is matched *exactly* against the
literal variants listed in `JPEG_EXTENSIONS` and `RAW_EXTENSIONS` (the
all-lowercase and all-uppercase spellings); a match is classified into the
corresponding role, and a file matching neither set — including other
capitalizations such as `.Jpg` or `.cR2` — is ignored. -/
theorem claim_C7_amended (st sfx : String) :
    scanPhotoList [⟨st, sfx⟩] =
      (if sfx ∈ JPEG_EXTENSIONS then
        [⟨st, some (st ++ sfx), none, .NONE, none⟩]
      else if sfx ∈ RAW_EXTENSIONS then
        [⟨st, none, some (st ++ sfx), .NONE, none⟩]
      else []) := by
  by_cases hj : sfx ∈ JPEG_EXTENSIONS
  · simp [scanPhotoList, buildGroups, assignFile, sortPairs, insertSorted,
      FileName.path, hj, PhotoPair.hasJpegB]
  · by_cases hr : sfx ∈ RAW_EXTENSIONS
    · simp [scanPhotoList, buildGroups, assignFile, sortPairs, insertSorted,
        FileName.path, hj, hr, PhotoPair.hasJpegB, PhotoPair.hasRawB]
    · simp [scanPhotoList, buildGroups, assignFile, sortPairs, insertSorted,
        FileName.path, hj, hr, PhotoPair.hasJpegB, PhotoPair.hasRawB]

/-- C8: an `actions` record whose action string is not one of the five
`PhotoAction` values is ignored for that entry — the apply step succeeds
for the whole mapping (same number of entries, each processed
independently) and the affected entry is left untouched, so a freshly
scanned entry keeps action `none`. -/
theorem claim_C8_unknown_action (pairs : List PhotoPair)
    (m : List (String × SessionRecord)) (i : Nat) (rec : SessionRecord)
    (hi : i < pairs.length)
    (hrec : lookupRecord m (pairs.getD i default).base_name = some rec)
    (hbad : parseAction rec.action = none)
    (hfresh : (pairs.getD i default).action = .NONE) :
    (applySessionData pairs m).length = pairs.length ∧
    (applySessionData pairs m).getD i default = pairs.getD i default ∧
    ((applySessionData pairs m).getD i default).action = PhotoAction.NONE := by
  have hlen : (applySessionData pairs m).length = pairs.length :=
    List.length_map pairs (applyOne m)
  have hstep : (applySessionData pairs m).getD i default = pairs.getD i default := by
    rw [List.getD_eq_getElem _ default (hlen ▸ hi), List.getD_eq_getElem _ default hi]
    rw [List.getD_eq_getElem _ default hi] at hrec
    unfold applySessionData
    rw [List.getElem_map]
    unfold applyOne
    rw [hrec]
    simp [hbad]
  exact ⟨hlen, hstep, by rw [hstep, hfresh]⟩

/-- Witness for C8: a mapping with the unknown action `"banana"` for `a`. -/
theorem claim_C8_witness :
    0 < [resetPair pairA].length ∧
    (lookupRecord [("a", ⟨"banana", some 3⟩)]
        (([resetPair pairA].getD 0 default).base_name) =
      some ⟨"banana", some 3⟩) ∧
    parseAction "banana" = none ∧
    (([resetPair pairA].getD 0 default).action = .NONE) ∧
    ((applySessionData [resetPair pairA] [("a", ⟨"banana", some 3⟩)]).length =
        [resetPair pairA].length ∧
      (applySessionData [resetPair pairA] [("a", ⟨"banana", some 3⟩)]).getD 0 default =
        [resetPair pairA].getD 0 default ∧
      ((applySessionData [resetPair pairA]
          [("a", ⟨"banana", some 3⟩)]).getD 0 default).action = PhotoAction.NONE) :=
  ⟨by decide, by decide, by decide, by decide,
    claim_C8_unknown_action [resetPair pairA] [("a", ⟨"banana", some 3⟩)] 0
      ⟨"banana", some 3⟩ (by decide) (by decide) (by decide) (by decide)⟩

theorem getD_set_self (l : List α) (i : Nat) (x d : α) (h : i < l.length) :
    (l.set i x).getD i d = x := by
  rw [List.getD_eq_getElem _ d (by simpa using h), List.getElem_set_self]

theorem getD_set_ne (l : List α) (i j : Nat) (x d : α) (h : i ≠ j) :
    (l.set i x).getD j d = l.getD j d := by
  by_cases hj : j < l.length
  · rw [List.getD_eq_getElem _ d (by simpa using hj), List.getD_eq_getElem _ d hj,
      List.getElem_set_ne h]
  · have hj' : l.length ≤ j := Nat.le_of_not_lt hj
    rw [List.getD_eq_default _ d (by simpa using hj'), List.getD_eq_default _ d hj']

/-- C5 counterexample: on entry `a` with both files, the JPEG deletion
succeeds but the RAW deletion raises; `delete_both_files` then does *not*
set `delete_all` (the action stays `none`) and does *not* remove the entry
— it aborts in its exception handler and returns `False`. -/
theorem claim_C5_counterexample :
    (delete_both_files pmA fsAfail 0 7).1.photo_pairs =
      [{ pairA with jpeg_path := none }] ∧
    ((delete_both_files pmA fsAfail 0 7).1.photo_pairs.getD 0
        default).action ≠ PhotoAction.DELETE_ALL ∧
    (delete_both_files pmA fsAfail 0 7).2.2 = false := by
  decide

/-- C5 as amended: when one file deletion succeeds and the next raises,
`delete_both_files` aborts at the failure point: the already-deleted file
stays deleted (its path nulled, no rollback), but the entry's action and
timestamp are unchanged (never set to `delete_all`), the entry stays in the
sequence, the cursor does not move, the sidecar is not rewritten, and the
call returns `False`. -/
theorem claim_C5_amended (s : PMState) (fs : FS) (i now : Nat)
    (fs1 : FS) (p1 : PhotoPair)
    (hi : i < s.photo_pairs.length)
    (h1 : attemptJpeg fs (s.photo_pairs.getD i default) = some (fs1, p1))
    (h2 : attemptRaw fs1 p1 = none) :
    delete_both_files s fs i now =
      ({ s with photo_pairs := s.photo_pairs.set i p1 }, fs1, false) ∧
    ((delete_both_files s fs i now).1.photo_pairs.getD i default).action =
      (s.photo_pairs.getD i default).action ∧
    ((delete_both_files s fs i now).1.photo_pairs.getD i
        default).action_timestamp =
      (s.photo_pairs.getD i default).action_timestamp ∧
    ((delete_both_files s fs i now).1.photo_pairs.getD i default).raw_path =
      (s.photo_pairs.getD i default).raw_path ∧
    (delete_both_files s fs i now).1.photo_pairs.length =
      s.photo_pairs.length ∧
    (delete_both_files s fs i now).1.current_index = s.current_index ∧
    (delete_both_files s fs i now).2.1.sidecar = fs.sidecar := by
  obtain ⟨hb, hr, ha, ht, hf, hsc⟩ := attemptJpeg_frame _ _ _ _ h1
  have heq : delete_both_files s fs i now =
      ({ s with photo_pairs := s.photo_pairs.set i p1 }, fs1, false) := by
    simp only [delete_both_files, h1, h2]
  refine ⟨heq, ?_, ?_, ?_, ?_, ?_, ?_⟩ <;> rw [heq]
  · simp only
    rw [getD_set_self _ _ _ _ hi, ha]
  · simp only
    rw [getD_set_self _ _ _ _ hi, ht]
  · simp only
    rw [getD_set_self _ _ _ _ hi, hr]
  · simp [List.length_set]
  · exact hsc

/-- Witness for the amended C5 at `pmA` over `fsAfail`. -/
theorem claim_C5_witness :
    0 < pmA.photo_pairs.length ∧
    attemptJpeg fsAfail (pmA.photo_pairs.getD 0 default) =
      some (fsAafterJpeg, pairAnoJpeg) ∧
    attemptRaw fsAafterJpeg pairAnoJpeg = none ∧
    (delete_both_files pmA fsAfail 0 7 =
      ({ pmA with photo_pairs := pmA.photo_pairs.set 0 pairAnoJpeg },
        fsAafterJpeg, false)) :=
  ⟨by decide, by decide, by decide,
    (claim_C5_amended pmA fsAfail 0 7 fsAafterJpeg pairAnoJpeg
      (by decide) (by decide) (by decide)).1⟩

/-- C4: with the cursor on a live entry, a fully successful
`delete_both_files` on the entry at index `i` removes exactly that entry
and adjusts the cursor: an index before the cursor shifts the cursor down
by one; deleting at the cursor clamps it to the new last valid index (or
reaches the empty state, where `get_current_photo` is `none`); deleting
after the cursor leaves it unchanged. -/
theorem claim_C4_delete_both (s : PMState) (fs : FS) (i now : Nat)
    (fs1 fs2 : FS) (p1 p2 : PhotoPair)
    (hi : i < s.photo_pairs.length)
    (hc : s.current_index < s.photo_pairs.length)
    (hnd : (s.photo_pairs.map PhotoPair.base_name).Nodup)
    (h1 : attemptJpeg fs (s.photo_pairs.getD i default) = some (fs1, p1))
    (h2 : attemptRaw fs1 p1 = some (fs2, p2)) :
    (delete_both_files s fs i now).2.2 = true ∧
    (delete_both_files s fs i now).1.photo_pairs = s.photo_pairs.eraseIdx i ∧
    (i < s.current_index →
      (delete_both_files s fs i now).1.current_index = s.current_index - 1) ∧
    (i = s.current_index →
      ((delete_both_files s fs i now).1.photo_pairs = [] →
        get_current_photo (delete_both_files s fs i now).1 = none) ∧
      ((delete_both_files s fs i now).1.photo_pairs ≠ [] →
        (delete_both_files s fs i now).1.current_index =
          min s.current_index
            ((delete_both_files s fs i now).1.photo_pairs.length - 1))) ∧
    (s.current_index < i →
      (delete_both_files s fs i now).1.current_index = s.current_index) := by
  obtain ⟨hb1, hr1, ha1, ht1, hf1, hs1⟩ := attemptJpeg_frame _ _ _ _ h1
  obtain ⟨hb2, hj2, ha2, ht2, hf2, hs2⟩ := attemptRaw_frame _ _ _ _ h2
  have hgd : s.photo_pairs.getD i default = s.photo_pairs[i] :=
    List.getD_eq_getElem _ _ hi
  have hp3b : (p2.set_action .DELETE_ALL now).base_name =
      s.photo_pairs[i].base_name := by
    show p2.base_name = _
    rw [hb2, hb1, hgd]
  have hset : i < (s.photo_pairs.set i (p2.set_action .DELETE_ALL now)).length := by
    simpa using hi
  have hmi : i < (s.photo_pairs.map PhotoPair.base_name).length := by
    simpa using hi
  have hnd3 :
      ((s.photo_pairs.set i (p2.set_action .DELETE_ALL now)).map
        PhotoPair.base_name).Nodup := by
    have hm : (s.photo_pairs.map PhotoPair.base_name)[i] =
        s.photo_pairs[i].base_name := List.getElem_map _
    rw [List.map_set, hp3b, ← hm, list_set_self _ _ hmi]
    exact hnd
  have hget3 : (s.photo_pairs.set i (p2.set_action .DELETE_ALL now))[i] =
      p2.set_action .DELETE_ALL now := List.getElem_set_self hset
  have hfind := firstIdxWhere_self_of_key_nodup PhotoPair.base_name
    (s.photo_pairs.set i (p2.set_action .DELETE_ALL now)) i hset hnd3
  rw [hget3] at hfind
  have hlen4 : (s.photo_pairs.eraseIdx i).length = s.photo_pairs.length - 1 := by
    rw [List.length_eraseIdx]
    simp [hi]
  simp only [delete_both_files, h1, h2, hfind, eraseIdx_set]
  refine ⟨trivial, trivial, ?_, ?_, ?_⟩
  · intro hlt
    have hEne : ¬ ((s.photo_pairs.eraseIdx i).isEmpty = true) := by
      rw [List.isEmpty_iff, ← List.length_eq_zero]
      omega
    rw [if_neg hEne, if_pos hlt]
  · intro he
    constructor
    · intro hnil
      have hE : (s.photo_pairs.eraseIdx i).isEmpty = true :=
        List.isEmpty_iff.mpr hnil
      rw [if_pos hE]
      simp [get_current_photo, hnil]
    · intro hnil
      have hEne : ¬ ((s.photo_pairs.eraseIdx i).isEmpty = true) := by
        rw [List.isEmpty_iff]
        exact hnil
      rw [if_neg hEne, if_neg (by omega : ¬ i < s.current_index), if_pos he,
        Nat.min_def]
      split <;> split <;> omega
  · intro hgt
    have hEne : ¬ ((s.photo_pairs.eraseIdx i).isEmpty = true) := by
      rw [List.isEmpty_iff, ← List.length_eq_zero]
      omega
    rw [if_neg hEne, if_neg (by omega : ¬ i < s.current_index),
      if_neg (by omega : ¬ i = s.current_index)]

/-- Witness for C4: property P6 — deleting `B` from `[A, B, C]` at cursor 1
succeeds, yields `[A, C]`, and the cursor stays 1, now pointing at `C`. -/
theorem claim_C4_witness :
    1 < pmABC.photo_pairs.length ∧
    pmABC.current_index < pmABC.photo_pairs.length ∧
    (pmABC.photo_pairs.map PhotoPair.base_name).Nodup ∧
    attemptJpeg fsABC (pmABC.photo_pairs.getD 1 default) = some (fsABC1, pB1) ∧
    attemptRaw fsABC1 pB1 = some (fsABC2, pB2) ∧
    ((delete_both_files pmABC fsABC 1 7).2.2 = true ∧
      (delete_both_files pmABC fsABC 1 7).1.photo_pairs =
        pmABC.photo_pairs.eraseIdx 1 ∧
      (1 < pmABC.current_index →
        (delete_both_files pmABC fsABC 1 7).1.current_index =
          pmABC.current_index - 1) ∧
      (1 = pmABC.current_index →
        ((delete_both_files pmABC fsABC 1 7).1.photo_pairs = [] →
          get_current_photo (delete_both_files pmABC fsABC 1 7).1 = none) ∧
        ((delete_both_files pmABC fsABC 1 7).1.photo_pairs ≠ [] →
          (delete_both_files pmABC fsABC 1 7).1.current_index =
            min pmABC.current_index
              ((delete_both_files pmABC fsABC 1 7).1.photo_pairs.length - 1))) ∧
      (pmABC.current_index < 1 →
        (delete_both_files pmABC fsABC 1 7).1.current_index =
          pmABC.current_index)) :=
  ⟨by decide, by decide, by decide, by decide, by decide,
    claim_C4_delete_both pmABC fsABC 1 7 fsABC1 fsABC2 pB1 pB2
      (by decide) (by decide) (by decide) (by decide) (by decide)⟩

/-- C10: `delete_jpeg_only` only ever deletes the preview file and nulls
its path: the entry's action, timestamp, base name and archive path are
unchanged, the entry count, the other entries, the cursor and the session
sidecar are untouched, it returns `False` when no preview file exists, and
on success (file present, deletion raises nothing) it returns `True` with
the preview path nulled and the file gone. -/
theorem claim_C10_delete_jpeg_frame (s : PMState) (fs : FS) (i : Nat)
    (hi : i < s.photo_pairs.length) :
    (delete_jpeg_only s fs i).1.current_index = s.current_index ∧
    (delete_jpeg_only s fs i).1.current_folder = s.current_folder ∧
    (delete_jpeg_only s fs i).1.photo_pairs.length = s.photo_pairs.length ∧
    ((delete_jpeg_only s fs i).1.photo_pairs.getD i default).base_name =
      (s.photo_pairs.getD i default).base_name ∧
    ((delete_jpeg_only s fs i).1.photo_pairs.getD i default).raw_path =
      (s.photo_pairs.getD i default).raw_path ∧
    ((delete_jpeg_only s fs i).1.photo_pairs.getD i default).action =
      (s.photo_pairs.getD i default).action ∧
    ((delete_jpeg_only s fs i).1.photo_pairs.getD i default).action_timestamp =
      (s.photo_pairs.getD i default).action_timestamp ∧
    (∀ j, j ≠ i → (delete_jpeg_only s fs i).1.photo_pairs.getD j default =
      s.photo_pairs.getD j default) ∧
    (delete_jpeg_only s fs i).2.1.sidecar = fs.sidecar ∧
    (¬ (s.photo_pairs.getD i default).hasJpegB fs.existing = true →
      delete_jpeg_only s fs i = (s, fs, false)) ∧
    (∀ q, (s.photo_pairs.getD i default).jpeg_path = some q →
      q ∈ fs.existing → ¬ q ∈ fs.failing →
      (delete_jpeg_only s fs i).2.2 = true ∧
      ((delete_jpeg_only s fs i).1.photo_pairs.getD i default).jpeg_path =
        none ∧
      (delete_jpeg_only s fs i).2.1.existing = fs.existing.erase q) := by
  by_cases hj : (s.photo_pairs.getD i default).hasJpegB fs.existing = true
  · obtain ⟨q, hq, hqex⟩ := (hasJpegB_eq_true_iff _ _).mp hj
    by_cases hfail : q ∈ fs.failing
    · have hu : fs.unlink q = none := by
        unfold FS.unlink
        rw [if_neg]
        intro hcon
        exact hcon.2 hfail
      have heq : delete_jpeg_only s fs i = (s, fs, false) := by
        simp only [delete_jpeg_only, hj, if_true, hq, Option.getD_some, hu]
      rw [heq]
      refine ⟨rfl, rfl, rfl, rfl, rfl, rfl, rfl, fun j _ => rfl, rfl,
        fun _ => rfl, ?_⟩
      intro q' hq' _ hfail'
      rw [hq] at hq'
      cases hq'
      exact absurd hfail hfail'
    · have hu : fs.unlink q =
          some ⟨fs.existing.erase q, fs.failing, fs.sidecar⟩ := by
        unfold FS.unlink
        rw [if_pos ⟨hqex, hfail⟩]
      have heq : delete_jpeg_only s fs i =
          ({ s with
              photo_pairs := s.photo_pairs.set i
                { s.photo_pairs.getD i default with jpeg_path := none } },
            ⟨fs.existing.erase q, fs.failing, fs.sidecar⟩, true) := by
        simp only [delete_jpeg_only, hj, if_true, hq, Option.getD_some, hu]
      rw [heq]
      refine ⟨rfl, rfl, by simp, ?_, ?_, ?_, ?_, ?_, rfl, ?_, ?_⟩
      · rw [getD_set_self _ _ _ _ hi]
      · rw [getD_set_self _ _ _ _ hi]
      · rw [getD_set_self _ _ _ _ hi]
      · rw [getD_set_self _ _ _ _ hi]
      · intro j hne
        exact getD_set_ne _ _ _ _ _ (fun h => hne h.symm)
      · intro hcon
        exact absurd hj hcon
      · intro q' hq' _ _
        rw [hq] at hq'
        cases hq'
        exact ⟨rfl, by rw [getD_set_self _ _ _ _ hi], rfl⟩
  · have heq : delete_jpeg_only s fs i = (s, fs, false) := by
      simp only [delete_jpeg_only]
      rw [if_neg hj]
    rw [heq]
    refine ⟨rfl, rfl, rfl, rfl, rfl, rfl, rfl, fun j _ => rfl, rfl,
      fun _ => rfl, ?_⟩
    intro q hq hqex _
    exact absurd ((hasJpegB_eq_true_iff _ _).mpr ⟨q, hq, hqex⟩) hj

/-- Witness for C10 on `pmA` (deleting `a`'s JPEG succeeds and the frame
conditions hold). -/
theorem claim_C10_witness :
    0 < pmA.photo_pairs.length ∧
    ((delete_jpeg_only pmA fsA 0).1.current_index = pmA.current_index ∧
      (delete_jpeg_only pmA fsA 0).2.1.sidecar = fsA.sidecar ∧
      (delete_jpeg_only pmA fsA 0).2.2 = true ∧
      ((delete_jpeg_only pmA fsA 0).1.photo_pairs.getD 0 default).jpeg_path =
        none ∧
      (delete_jpeg_only pmA fsA 0).2.1.existing = fsA.existing.erase "a.jpg") := by
  have h := claim_C10_delete_jpeg_frame pmA fsA 0 (by decide)
  have hs := h.2.2.2.2.2.2.2.2.2.2 "a.jpg" (by decide) (by decide) (by decide)
  exact ⟨by decide, h.1, h.2.2.2.2.2.2.2.2.1, hs.1, hs.2.1, hs.2.2⟩

/-- C1, evaluated at the failing input: with a delete-all staged on the
sole entry `a`, `_cancel_pending_action` does restore the cursor and clear
the pending state without touching the entry, but confirming
(`_execute_pending_action`) runs the staged callback, which removes the
entry and deletes its files via `delete_both_files` and then — because
`delete_both_files` returned `True` — calls the nonexistent
`PhotoManager.remove_current_photo_from_list`; the resulting
`AttributeError` escapes before `self.pending_action = None` runs, so the
pending state is *not* cleared, contradicting the claim. -/
theorem claim_C1_confirm_crash :
    execute_pending_action winA fsA 7 =
      ExecOutcome.raised ⟨⟨some "/d", [], 0, []⟩, some pendingA⟩
        ⟨[], [], some []⟩ ∧
    cancel_pending_action winA = ⟨pmA, none⟩ ∧
    execute_pending_action ⟨pmA, none⟩ fsA 7 = ExecOutcome.ok ⟨pmA, none⟩ fsA := by
  decide
